import Mathlib

/-!
Verification development for the simulated brokerage engine of this repository.

The embedding mirrors, definition by definition:
  * `common/common_lib/alpaca_helpers/simulation/db.py` — the SQLite-backed
    store (`Database.add` / `update` / `delete` each open their own session and
    commit independently; `get_open_orders`, `get_latest_price`, ...);
  * `common/common_lib/alpaca_helpers/simulation/trading_client.py` — the
    matching-engine tick (`_update_orders`), position accounting
    (`_update_position`), `submit_order`, `cancel_orders`,
    `cancel_order_by_id`, `replace_order_by_id`, `close_position`;
  * `brokerage_service/src/alpaca_api/tools.py` — the `cancel_order`,
    `liquidate_position` and `place_trailing_stop` tools.

Conventions of the embedding:
  * Python float prices and quantities are modelled as rationals (`ℚ`); the
    claims under study are about comparisons and exact arithmetic identities,
    not rounding.
  * Order status / side / type are the literal strings the source stores.
  * The database is a record of lists; one committed transaction of
    `Database.add` / `update` / `delete` is one pure update of that record.
    Timestamps and uuid generation are dropped (ids are passed explicitly);
    they are irrelevant to every property treated here.
-/

/-- Decidable equality for `Except`, used to evaluate the store's fallible
operations on concrete inputs. -/
instance {ε α : Type} [DecidableEq ε] [DecidableEq α] :
    DecidableEq (Except ε α) := fun a b =>
  match a, b with
  | .ok x, .ok y => decidable_of_iff (x = y) (by simp)
  | .error e, .error f => decidable_of_iff (e = f) (by simp)
  | .ok _, .error _ => isFalse (by simp)
  | .error _, .ok _ => isFalse (by simp)

namespace Sim

/-- An `orders` row (db.py `Order`): quantities are stored as strings in the
schema and read back with `float(...)`; here both live as `ℚ`.  `legIds`
models the JSON-encoded `legs` column. -/
structure Order where
  id : String
  symbol : String
  qty : ℚ
  side : String
  type : String
  timeInForce : String
  limitPrice : Option ℚ
  stopPrice : Option ℚ
  filledQty : Option ℚ
  filledAvgPrice : Option ℚ
  status : String
  legIds : List String
deriving DecidableEq, Repr

/-- An `order_fills` row (db.py `OrderFill`), minus the timestamp. -/
structure Fill where
  orderId : String
  price : ℚ
  qty : ℚ
deriving DecidableEq, Repr

/-- A `positions` row (db.py `Position`); the fields the engine reads or
writes.  `qty` holds exactly what the source stores: `str(abs(new_qty))`. -/
structure Position where
  symbol : String
  qty : ℚ
  side : String
  avgEntryPrice : ℚ
  marketValue : ℚ
  costBasis : ℚ
  currentPrice : ℚ
deriving DecidableEq, Repr

/-- The singleton `account` row, reduced to the field the claims mention. -/
structure Account where
  cash : ℚ
deriving DecidableEq, Repr

/-- The database: one pure record standing for the SQLite file.  `prices`
holds, per symbol, the latest `close` of the `market_data` table (what
`Database.get_latest_price` would return); `account` is `none` when the
account row is absent. -/
structure DBState where
  orders : List Order
  fills : List Fill
  positions : List Position
  account : Option Account
  prices : List (String × ℚ)
deriving DecidableEq, Repr

/-- `Database.get_latest_price`: the latest close for the symbol, or `None`.
A stored close of `0` is returned as `some 0` (the source returns
`float(market_data.close)` whenever a row exists). -/
def getLatestPrice (st : DBState) (symbol : String) : Option ℚ :=
  (st.prices.find? (fun pr => pr.1 = symbol)).map Prod.snd

/-- The statuses `Database.get_open_orders` selects. -/
def openStatuses : List String := ["new", "accepted", "partially_filled"]

/-- `Database.get_open_orders` (no symbol filter). -/
def getOpenOrders (st : DBState) : List Order :=
  st.orders.filter (fun o => decide (o.status ∈ openStatuses))

/-- Look an order up by primary key (`Database.get(Order, id)`). -/
def findOrder (st : DBState) (oid : String) : Option Order :=
  st.orders.find? (fun o => o.id = oid)

/-- The fills recorded for one order id. -/
def fillsFor (st : DBState) (oid : String) : List Fill :=
  st.fills.filter (fun f => f.orderId = oid)

/-- The `should_fill` / `fill_price` decision of `_update_orders`
(trading_client.py lines 223-240), given the latest price: `some p` means
"fill at price `p`", `none` means the order is not fillable.  Any type other
than `market` / `limit` / `stop` falls through every branch with
`should_fill` still `False`. -/
def shouldFill (o : Order) (latestPrice : ℚ) : Option ℚ :=
  if o.type = "market" then
    some latestPrice
  else if o.type = "limit" then
    match o.limitPrice with
    | some lp =>
      if o.side = "buy" ∧ latestPrice ≤ lp then some lp
      else if o.side = "sell" ∧ latestPrice ≥ lp then some lp
      else none
    | none => none
  else if o.type = "stop" then
    match o.stopPrice with
    | some sp =>
      if o.side = "sell" ∧ latestPrice ≤ sp then some latestPrice
      else if o.side = "buy" ∧ latestPrice ≥ sp then some latestPrice
      else none
    | none => none
  else
    none

/-- `_update_position` (trading_client.py lines 270-312), as a function on the
positions table.  Note the source stores `qty=str(abs(new_qty))` yet reads the
stored value back as `float(position.qty)` — the absolute value — when the
next fill arrives. -/
def updatePosition (positions : List Position) (o : Order) (fillPrice : ℚ) :
    List Position :=
  let qty : ℚ := if o.side = "sell" then -o.qty else o.qty
  match positions.find? (fun p => p.symbol = o.symbol) with
  | some position =>
    let newQty := position.qty + qty
    if newQty = 0 then
      positions.filter (fun p => ¬ (p.symbol = o.symbol))
    else
      let avgPrice :=
        (position.avgEntryPrice * position.qty + fillPrice * qty) / newQty
      positions.map (fun p =>
        if p.symbol = o.symbol then
          { p with
              qty := |newQty|,
              side := if newQty > 0 then "long" else "short",
              avgEntryPrice := avgPrice,
              marketValue := newQty * fillPrice,
              currentPrice := fillPrice }
        else p)
  | none =>
    positions ++
      [{ symbol := o.symbol,
         qty := |qty|,
         side := if qty > 0 then "long" else "short",
         avgEntryPrice := fillPrice,
         marketValue := qty * fillPrice,
         costBasis := qty * fillPrice,
         currentPrice := fillPrice }]

/-- The order update of a fill (`db.update(order, status="filled", ...)`,
trading_client.py lines 252-257). -/
def setFilled (fillPrice : ℚ) (o : Order) : Order :=
  { o with
      status := "filled",
      filledQty := some o.qty,
      filledAvgPrice := some fillPrice }

/-- First committed transaction of a fill: update the order row. -/
def markOrderFilled (st : DBState) (oid : String) (fillPrice : ℚ) : DBState :=
  { st with
      orders := st.orders.map (fun x => if x.id = oid then setFilled fillPrice x else x) }

/-- Second committed transaction of a fill: insert the `OrderFill` row
(`db.add(fill)`, trading_client.py lines 244-260). -/
def insertFill (st : DBState) (o : Order) (fillPrice : ℚ) : DBState :=
  { st with fills := st.fills ++ [{ orderId := o.id, price := fillPrice, qty := o.qty }] }

/-- Third committed transaction of a fill: the position upsert/delete of
`_update_position`. -/
def applyPositionUpdate (st : DBState) (o : Order) (fillPrice : ℚ) : DBState :=
  { st with positions := updatePosition st.positions o fillPrice }

/-- Fill application as the source performs it (trading_client.py lines
242-263): three successive calls to `db.update` / `db.add` /
`_update_position`, each of which opens its own session and commits its own
transaction (db.py lines 150-194).  The list holds the database state visible
after each of the three commits, in program order. -/
def applyFillTrace (st : DBState) (o : Order) (fillPrice : ℚ) : List DBState :=
  let s1 := markOrderFilled st o.id fillPrice
  let s2 := insertFill s1 o fillPrice
  let s3 := applyPositionUpdate s2 o fillPrice
  [s1, s2, s3]

/-- The state after all three commits of a fill. -/
def applyFill (st : DBState) (o : Order) (fillPrice : ℚ) : DBState :=
  applyPositionUpdate (insertFill (markOrderFilled st o.id fillPrice) o fillPrice) o fillPrice

/-- One iteration of the `for order in open_orders` body of `_update_orders`:
skip when no latest price is known — and also when the known price is `0`,
because the source's `if not latest_price: continue` is a Python falsiness
test and `0.0` is falsy — otherwise fill iff `shouldFill` says so. -/
def tickStep (s : DBState) (o : Order) : DBState :=
  match getLatestPrice s o.symbol with
  | none => s
  | some latestPrice =>
    if latestPrice = 0 then s
    else
      match shouldFill o latestPrice with
      | none => s
      | some fillPrice => applyFill s o fillPrice

/-- One pass of the matching-engine background loop `_update_orders`: fetch
the open orders once, then process them in order against the evolving
database state. -/
def tick (st : DBState) : DBState :=
  (getOpenOrders st).foldl tickStep st

/-- An `OrderRequest` as `submit_order` consumes it (symbol, qty, side, type,
time in force, optional limit/stop prices, optional bracket leg prices). -/
structure OrderRequest where
  symbol : String
  qty : ℚ
  side : String
  type : String
  timeInForce : String
  limitPrice : Option ℚ
  stopPrice : Option ℚ
  takeProfitPrice : Option ℚ
  stopLossPrice : Option ℚ
deriving DecidableEq, Repr

/-- `"sell" if order_data.side == "buy" else "buy"` — the leg side of
`submit_order`. -/
def flipSide (s : String) : String :=
  if s = "buy" then "sell" else "buy"

/-- The take-profit leg `submit_order` creates when `take_profit_price` is
set (trading_client.py lines 338-351): a `limit` order on the flipped side,
created directly in status `"held"`. -/
def takeProfitLeg (req : OrderRequest) (legId : String) : Option Order :=
  req.takeProfitPrice.map (fun price =>
    { id := legId, symbol := req.symbol, qty := req.qty,
      side := flipSide req.side, type := "limit", timeInForce := "gtc",
      limitPrice := some price, stopPrice := none,
      filledQty := none, filledAvgPrice := none,
      status := "held", legIds := [] })

/-- The stop-loss leg `submit_order` creates when `stop_loss_price` is set
(trading_client.py lines 354-367): a `stop` order on the flipped side,
created directly in status `"held"`. -/
def stopLossLeg (req : OrderRequest) (legId : String) : Option Order :=
  req.stopLossPrice.map (fun price =>
    { id := legId, symbol := req.symbol, qty := req.qty,
      side := flipSide req.side, type := "stop", timeInForce := "gtc",
      limitPrice := none, stopPrice := some price,
      filledQty := none, filledAvgPrice := none,
      status := "held", legIds := [] })

/-- The bracket legs `submit_order` creates: the optional take-profit leg
followed by the optional stop-loss leg. -/
def submittedLegs (req : OrderRequest) (tpId slId : String) : List Order :=
  (takeProfitLeg req tpId).toList ++ (stopLossLeg req slId).toList

/-- The main order `submit_order` creates, in status `"new"`, carrying the
ids of its legs. -/
def mainOrderOf (req : OrderRequest) (mainId : String) (legs : List Order) :
    Order :=
  { id := mainId, symbol := req.symbol, qty := req.qty,
    side := req.side, type := req.type, timeInForce := req.timeInForce,
    limitPrice := req.limitPrice, stopPrice := req.stopPrice,
    filledQty := none, filledAvgPrice := none,
    status := "new", legIds := legs.map Order.id }

/-- `SimulationTradingClient.submit_order` (trading_client.py lines 314-381):
creates the main order in status `"new"`, the optional take-profit and
stop-loss legs in status `"held"`, records the leg ids on the main order, and
adds each row to the database.  Fresh uuids become explicit id parameters. -/
def submitOrder (st : DBState) (req : OrderRequest)
    (mainId tpId slId : String) : DBState :=
  { st with
      orders := st.orders
        ++ [mainOrderOf req mainId (submittedLegs req tpId slId)]
        ++ submittedLegs req tpId slId }

/-- `SimulationTradingClient.cancel_orders` (trading_client.py lines
452-472): select every order whose status is in the open family and set it to
`canceled`.  Orders in any other status — `held`, `filled`, ... — are not
selected and stay untouched. -/
def cancelAllOrders (st : DBState) : DBState :=
  { st with
      orders := st.orders.map (fun o =>
        if o.status ∈ openStatuses then { o with status := "canceled" } else o) }

/-- `SimulationTradingClient.cancel_order_by_id` (trading_client.py lines
474-484): raise if the order does not exist, otherwise set its status to
`canceled` unconditionally — the current status, terminal or not, is never
inspected. -/
def cancelOrderById (st : DBState) (oid : String) : Except String DBState :=
  match findOrder st oid with
  | none => Except.error "Order not found"
  | some _ =>
    Except.ok
      { st with
          orders := st.orders.map (fun o =>
            if o.id = oid then { o with status := "canceled" } else o) }

/-- A `ReplaceOrderRequest`: the fields the Alpaca request type carries.
There is no status field, so a replace can never change an order's status. -/
structure ReplaceOrderRequest where
  qty : Option ℚ
  timeInForce : Option String
  limitPrice : Option ℚ
  stopPrice : Option ℚ
deriving DecidableEq, Repr

/-- Apply the set fields of a replace request to an order
(`model_dump(exclude_unset=True)` followed by `setattr` per field). -/
def applyReplace (r : ReplaceOrderRequest) (o : Order) : Order :=
  { o with
      qty := r.qty.getD o.qty,
      timeInForce := r.timeInForce.getD o.timeInForce,
      limitPrice := match r.limitPrice with | some lp => some lp | none => o.limitPrice,
      stopPrice := match r.stopPrice with | some sp => some sp | none => o.stopPrice }

/-- `SimulationTradingClient.replace_order_by_id` (trading_client.py lines
432-450): raise if absent, otherwise update the set fields in place. -/
def replaceOrderById (st : DBState) (oid : String) (r : ReplaceOrderRequest) :
    Except String DBState :=
  match findOrder st oid with
  | none => Except.error "Order not found"
  | some _ =>
    Except.ok
      { st with
          orders := st.orders.map (fun o =>
            if o.id = oid then applyReplace r o else o) }

/-- `SimulationTradingClient.close_position` (trading_client.py lines
547-578), restricted to its store effects: raise if there is no position for
the symbol, otherwise add a closing market order already in status `"filled"`
and delete the position row. -/
def closePosition (st : DBState) (symbol : String) (newOrderId : String) :
    Except String DBState :=
  match st.positions.find? (fun p => p.symbol = symbol) with
  | none => Except.error "Position not found"
  | some position =>
    Except.ok
      { st with
          orders := st.orders ++
            [{ id := newOrderId, symbol := position.symbol,
               qty := position.qty,
               side := if position.side = "long" then "sell" else "buy",
               type := "market", timeInForce := "day",
               limitPrice := none, stopPrice := none,
               filledQty := none, filledAvgPrice := none,
               status := "filled", legIds := [] }],
          positions := st.positions.filter (fun p => ¬ (p.symbol = symbol)) }

/-- The mutating operations of the simulation engine, as one step alphabet:
a matching-engine tick or one call of a mutating client method. -/
inductive EngineOp where
  | tick
  | cancelAll
  | cancelById (oid : String)
  | replaceById (oid : String) (r : ReplaceOrderRequest)
  | submit (req : OrderRequest) (mainId tpId slId : String)
  | close (symbol : String) (newOrderId : String)
deriving Repr

/-- Run one engine operation; a raising client call (order or position not
found) leaves the database unchanged. -/
def applyOp (st : DBState) : EngineOp → DBState
  | .tick => tick st
  | .cancelAll => cancelAllOrders st
  | .cancelById oid =>
    match cancelOrderById st oid with
    | .ok s => s
    | .error _ => st
  | .replaceById oid r =>
    match replaceOrderById st oid r with
    | .ok s => s
    | .error _ => st
  | .submit req mainId tpId slId => submitOrder st req mainId tpId slId
  | .close symbol newOrderId =>
    match closePosition st symbol newOrderId with
    | .ok s => s
    | .error _ => st

end Sim

namespace Tools

/-!
The brokerage-service tools of `brokerage_service/src/alpaca_api/tools.py`.
-/

/-- The exit set of the `while order.status not in [...]` polling loop of the
`cancel_order` tool (tools.py lines 226-232).  Note `"filled"` is absent. -/
def cancelPollExitStatuses : List String :=
  ["canceled", "expired", "rejected", "stopped", "suspended"]

/-- The polling loop of `cancel_order`, fuel-indexed: `statusAt i` is the
order status the i-th `get_order_by_id` observes.  `none` means the loop was
still running after `fuel` observations — the source loop has no retry bound,
so a run of the source terminates iff some fuel suffices here. -/
def pollCancel (statusAt : Nat → String) : Nat → Nat → Option String
  | 0, _ => none
  | fuel + 1, i =>
    if statusAt i ∈ cancelPollExitStatuses then some (statusAt i)
    else pollCancel statusAt fuel (i + 1)

/-- The result dictionary of the `cancel_order` tool. -/
structure CancelToolResult where
  orderId : String
  orderStatus : String
deriving DecidableEq, Repr

/-- The `cancel_order` tool (tools.py lines 205-245) after the initial
`cancel_order_by_id` call: poll until a status in the exit set is observed,
then report `"canceled"` when that status is exactly `canceled` and the
observed status otherwise.  `none` models the loop not having returned within
`fuel` observations. -/
def cancelOrderTool (oid : String) (statusAt : Nat → String) (fuel : Nat) :
    Option CancelToolResult :=
  match pollCancel statusAt fuel 0 with
  | none => none
  | some s =>
    some { orderId := oid, orderStatus := if s = "canceled" then "canceled" else s }

/-- The structured result of `liquidate_position`. -/
structure LiquidationResult where
  success : Bool
  error : Option String
deriving DecidableEq, Repr

/-- The first error among the gathered cancel legs: `asyncio.gather` with the
default `return_exceptions=False` re-raises the first exception a leg raises,
and the single `try/except` around the whole body catches it. -/
def firstError (results : List (Except String Unit)) : Option String :=
  results.findSome? (fun r =>
    match r with
    | .error e => some e
    | .ok _ => none)

/-- The `liquidate_position` tool (tools.py lines 247-285), with the outcome
of each concurrent `cancel_order` leg passed in (`.ok` for a leg that
returned, `.error e` for a leg whose cancel raised, as a live-broker cancel
of an already-filled order does).  If any leg raises, the exception
propagates out of `asyncio.gather`, the `except` branch returns
`success: False` with that error, and `close_position` is never reached;
only when every leg returns is the position closed. -/
def liquidatePosition (st : Sim.DBState) (symbol : String)
    (cancelResults : List (Except String Unit)) (newOrderId : String) :
    LiquidationResult × Sim.DBState :=
  match firstError cancelResults with
  | some e => ({ success := false, error := some e }, st)
  | none =>
    match Sim.closePosition st symbol newOrderId with
    | .ok st2 => ({ success := true, error := none }, st2)
    | .error e => ({ success := false, error := some e }, st)

/-- The trailing parameter of `place_trailing_stop`: a percent (in percent
units, `5` meaning 5%) or a fixed dollar amount. -/
inductive TrailParam where
  | percent (p : ℚ)
  | fixed (t : ℚ)
deriving DecidableEq, Repr

/-- The parameter validation of `place_trailing_stop` (tools.py lines
343-350): exactly one of trail_percent / trail_price must be given;
trail_percent must lie in [0.01, 20.0]; trail_price must be positive. -/
def validTrailParams (trailPercent trailPrice : Option ℚ) : Bool :=
  match trailPercent, trailPrice with
  | none, none => false
  | some _, some _ => false
  | some p, none => decide (0.01 ≤ p) && decide (p ≤ 20)
  | none, some t => decide (0 < t)

/-- Modelled from the spec: the trailing-stop tracker itself is not code of
this repository — `place_trailing_stop` only validates and submits a
`TrailingStopOrderRequest`, the ratchet runs broker-side, and the simulation
engine never matches trailing-stop orders.  Per the spec, the high-water-mark
of a sell-side trail is the highest price observed since the order became
active, ratcheting only upward: it is the running maximum of the observed
prices. -/
def highWaterMark (initial : ℚ) (prices : List ℚ) : ℚ :=
  prices.foldl max initial

/-- Modelled from the spec: the low-water-mark of a buy-side trail ratchets
only downward — the running minimum of the observed prices. -/
def lowWaterMark (initial : ℚ) (prices : List ℚ) : ℚ :=
  prices.foldl min initial

/-- Modelled from the spec: the effective stop price of a sell-side trailing
stop — `hwm × (1 − trail_percent) | hwm − trail_price`, the percent read in
percent units as the tool's contract states (5 means 5%, initial stop
`(1 − 5/100) × 100 = 95` at price 100). -/
def sellTrailStopPrice (tp : TrailParam) (hwm : ℚ) : ℚ :=
  match tp with
  | .percent p => hwm * (1 - p / 100)
  | .fixed t => hwm - t

/-- Modelled from the spec: the effective stop price of a buy-side trailing
stop — mirrored above the low-water-mark. -/
def buyTrailStopPrice (tp : TrailParam) (lwm : ℚ) : ℚ :=
  match tp with
  | .percent p => lwm * (1 + p / 100)
  | .fixed t => lwm + t

end Tools

namespace Ex

/-!
Concrete database states used to evaluate the engine on explicit inputs.
-/

/-- A plain open market buy order, 10 shares of AAPL. -/
def marketBuy : Sim.Order :=
  { id := "o1", symbol := "AAPL", qty := 10, side := "buy", type := "market",
    timeInForce := "day", limitPrice := none, stopPrice := none,
    filledQty := none, filledAvgPrice := none, status := "new", legIds := [] }

/-- A database holding just `marketBuy`, a fresh account with 100000 cash,
and a latest AAPL price of 100. -/
def st0 : Sim.DBState :=
  { orders := [marketBuy], fills := [], positions := [],
    account := some { cash := 100000 }, prices := [("AAPL", 100)] }

/-- The database state after the first committed transaction of filling
`marketBuy` at 100 — the order-row update. -/
def st0AfterOrderUpdate : Sim.DBState :=
  Sim.markOrderFilled st0 "o1" 100

/-- The same market buy order, in a database whose latest AAPL close is
exactly `0`. -/
def stZeroPrice : Sim.DBState :=
  { orders := [marketBuy], fills := [], positions := [],
    account := some { cash := 100000 }, prices := [("AAPL", 0)] }

/-- A filled order together with its fill row: the state after the matching
engine won the race on `marketBuy`. -/
def stFilled : Sim.DBState :=
  { orders := [Sim.setFilled 100 marketBuy],
    fills := [{ orderId := "o1", price := 100, qty := 10 }],
    positions :=
      [{ symbol := "AAPL", qty := 10, side := "long", avgEntryPrice := 100,
         marketValue := 1000, costBasis := 1000, currentPrice := 100 }],
    account := some { cash := 100000 }, prices := [("AAPL", 100)] }

/-- An existing short position: 10 shares of AAPL short at entry 100,
stored — as the source stores it — with the absolute quantity. -/
def shortPos : Sim.Position :=
  { symbol := "AAPL", qty := 10, side := "short", avgEntryPrice := 100,
    marketValue := -1000, costBasis := -1000, currentPrice := 100 }

/-- An existing long position: 10 shares of AAPL at entry 100. -/
def longTen : Sim.Position :=
  { symbol := "AAPL", qty := 10, side := "long", avgEntryPrice := 100,
    marketValue := 1000, costBasis := 1000, currentPrice := 100 }

/-- A sell order for 5 shares of AAPL — same direction as `shortPos`. -/
def sellFive : Sim.Order :=
  { id := "o2", symbol := "AAPL", qty := 5, side := "sell", type := "market",
    timeInForce := "day", limitPrice := none, stopPrice := none,
    filledQty := none, filledAvgPrice := none, status := "new", legIds := [] }

/-- What the engine actually produces for a 5-share sell fill at 100 against
`shortPos`: a 5-share LONG position (the stored absolute quantity was read
back as signed). -/
def shortPosAfterSell : Sim.Position :=
  { symbol := "AAPL", qty := 5, side := "long", avgEntryPrice := 100,
    marketValue := 500, costBasis := -1000, currentPrice := 100 }

/-- The state after a cancel lands on the already-filled order: status
overwritten to canceled, the fill row still present. -/
def stCanceledAfterFill : Sim.DBState :=
  { stFilled with
      orders := [{ Sim.setFilled 100 marketBuy with status := "canceled" }] }

/-- A database holding one TSLA position, for the liquidation scenario. -/
def stTSLA : Sim.DBState :=
  { orders := [], fills := [], positions :=
      [{ symbol := "TSLA", qty := 3, side := "long", avgEntryPrice := 200,
         marketValue := 600, costBasis := 600, currentPrice := 200 }],
    account := some { cash := 100000 }, prices := [("TSLA", 200)] }

/-- The state `close_position("TSLA")` would produce from `stTSLA`: closing
market order appended (already filled), position row deleted. -/
def stTSLAClosed : Sim.DBState :=
  { stTSLA with
      orders :=
        [{ id := "o9", symbol := "TSLA", qty := 3, side := "sell",
           type := "market", timeInForce := "day", limitPrice := none,
           stopPrice := none, filledQty := none, filledAvgPrice := none,
           status := "filled", legIds := [] }],
      positions := [] }

/-- A held take-profit leg, as `submit_order` creates them. -/
def heldLeg : Sim.Order :=
  { id := "leg1", symbol := "AAPL", qty := 10, side := "sell", type := "limit",
    timeInForce := "gtc", limitPrice := some 120, stopPrice := none,
    filledQty := none, filledAvgPrice := none, status := "held", legIds := [] }

/-- A database holding an open parent order and its held leg. -/
def stHeld : Sim.DBState :=
  { orders := [marketBuy, heldLeg], fills := [], positions := [],
    account := some { cash := 100000 }, prices := [("AAPL", 100)] }

/-- An open trailing-stop order, a type the simulation matching engine never
matches. -/
def trailingOrder : Sim.Order :=
  { id := "o3", symbol := "AAPL", qty := 10, side := "sell",
    type := "trailing_stop", timeInForce := "day", limitPrice := none,
    stopPrice := some 95, filledQty := none, filledAvgPrice := none,
    status := "new", legIds := [] }

/-- A database holding just the trailing-stop order. -/
def stTrailing : Sim.DBState :=
  { orders := [trailingOrder], fills := [], positions := [],
    account := some { cash := 100000 }, prices := [("AAPL", 50)] }

end Ex


/-!
Shared lemmas about the engine.
-/

namespace Sim

/-- The order returned by `findOrder st i` carries id `i`. -/
theorem findOrder_id {st : DBState} {i : String} {o : Order}
    (h : findOrder st i = some o) : o.id = i := by
  have := List.find?_some h
  simpa using this

/-- The order returned by `findOrder` is a member of the table. -/
theorem findOrder_mem {st : DBState} {i : String} {o : Order}
    (h : findOrder st i = some o) : o ∈ st.orders :=
  List.mem_of_find?_eq_some h

/-- Looking an order up in a table mapped through an id-preserving function
finds the image of the original lookup. -/
theorem find?_id_map (l : List Order) (i : String) (g : Order → Order)
    (hg : ∀ x, (g x).id = x.id) :
    (l.map g).find? (fun o => o.id = i) = (l.find? (fun o => o.id = i)).map g := by
  rw [List.find?_map]
  have hpg : ((fun o : Order => decide (o.id = i)) ∘ g)
      = (fun o : Order => decide (o.id = i)) := by
    funext x
    simp [Function.comp, hg]
  rw [hpg]

/-- Lookup distributes over an appended table when the first part already
finds the order. -/
theorem find?_append_of_some {l₁ : List Order} {p : Order → Bool} {a : Order}
    (h : l₁.find? p = some a) (l₂ : List Order) :
    (l₁ ++ l₂).find? p = some a := by
  rw [List.find?_append, h]
  rfl

/-- The id-keyed update function of the store's order updates preserves ids
whenever the transform does. -/
theorem update_preserves_id (oid : String) (g : Order → Order)
    (hg : ∀ x, (g x).id = x.id) (x : Order) :
    ((fun y : Order => if y.id = oid then g y else y) x).id = x.id := by
  by_cases h : x.id = oid <;> simp [h, hg]

/-- Mapping ids commutes with any id-preserving table rewrite. -/
theorem map_id_of_id_preserved (l : List Order) (g : Order → Order)
    (hg : ∀ x, (g x).id = x.id) :
    (l.map g).map Order.id = l.map Order.id := by
  rw [List.map_map]
  exact List.map_congr_left (fun x _ => hg x)

/-- `setFilled` only touches status and fill fields, not the id. -/
theorem setFilled_id (fp : ℚ) (x : Order) : (setFilled fp x).id = x.id := rfl

/-- A type outside `market` / `limit` / `stop` falls through every branch of
the fill decision. -/
theorem shouldFill_eq_none_of_type {o : Order}
    (h : ¬ (o.type ∈ (["market", "limit", "stop"] : List String)))
    (lp : ℚ) : shouldFill o lp = none := by
  simp only [List.mem_cons, List.not_mem_nil, or_false, not_or] at h
  simp [shouldFill, h.1, h.2.1, h.2.2]

/-- The orders table of `applyFill` is that of its first commit. -/
theorem applyFill_orders (s : DBState) (u : Order) (fp : ℚ) :
    (applyFill s u fp).orders
      = s.orders.map (fun x => if x.id = u.id then setFilled fp x else x) := rfl

/-- `applyFill` leaves the account row alone: no branch of the source's fill
application reads or writes the `account` table. -/
theorem applyFill_account (s : DBState) (u : Order) (fp : ℚ) :
    (applyFill s u fp).account = s.account := rfl

/-- `applyFill` does not touch the market-data table. -/
theorem applyFill_prices (s : DBState) (u : Order) (fp : ℚ) :
    (applyFill s u fp).prices = s.prices := rfl

/-- `applyFill` preserves the list of order ids. -/
theorem applyFill_map_id (s : DBState) (u : Order) (fp : ℚ) :
    (applyFill s u fp).orders.map Order.id = s.orders.map Order.id := by
  rw [applyFill_orders]
  exact map_id_of_id_preserved _ _ (update_preserves_id u.id (setFilled fp) (setFilled_id fp))

/-- Filling order `u` does not move any other order row. -/
theorem findOrder_applyFill_ne (s : DBState) (u : Order) (fp : ℚ) {i : String}
    (h : ¬ (u.id = i)) :
    findOrder (applyFill s u fp) i = findOrder s i := by
  have h1 : findOrder (applyFill s u fp) i
      = (findOrder s i).map (fun y => if y.id = u.id then setFilled fp y else y) := by
    unfold findOrder
    rw [applyFill_orders]
    exact find?_id_map _ i _ (update_preserves_id u.id (setFilled fp) (setFilled_id fp))
  rw [h1]
  cases hf : findOrder s i with
  | none => rfl
  | some x =>
    have hx : x.id = i := findOrder_id hf
    have hxu : ¬ (x.id = u.id) := by
      rw [hx]
      intro hc
      exact h hc.symm
    simp [hxu]

/-- Filling order `u` appends a fill row for `u` only. -/
theorem fillsFor_applyFill_ne (s : DBState) (u : Order) (fp : ℚ) {i : String}
    (h : ¬ (u.id = i)) :
    fillsFor (applyFill s u fp) i = fillsFor s i := by
  have h1 : (applyFill s u fp).fills
      = s.fills ++ [{ orderId := u.id, price := fp, qty := u.qty }] := rfl
  unfold fillsFor
  rw [h1, List.filter_append]
  simp [h]

/-- A tick iteration on an order that the fill decision rejects at every
price is a no-op. -/
theorem tickStep_eq_of_shouldFill_none (s : DBState) (u : Order)
    (h : ∀ lp, shouldFill u lp = none) : tickStep s u = s := by
  unfold tickStep
  cases hp : getLatestPrice s u.symbol with
  | none => rfl
  | some lp => simp [h lp]

/-- A tick iteration on order `u` leaves every other order's row, every
other order's fills, the id list, the prices and the account unchanged. -/
theorem tickStep_preserve_ne (s : DBState) (u : Order) {i : String}
    (h : ¬ (u.id = i)) :
    findOrder (tickStep s u) i = findOrder s i
    ∧ fillsFor (tickStep s u) i = fillsFor s i
    ∧ (tickStep s u).orders.map Order.id = s.orders.map Order.id
    ∧ (tickStep s u).prices = s.prices
    ∧ (tickStep s u).account = s.account := by
  unfold tickStep
  cases hp : getLatestPrice s u.symbol with
  | none => exact ⟨rfl, rfl, rfl, rfl, rfl⟩
  | some lp =>
    by_cases hz : lp = 0
    · simp only [hz, if_pos rfl]
      exact ⟨rfl, rfl, rfl, rfl, rfl⟩
    · simp only [if_neg hz]
      cases hsf : shouldFill u lp with
      | none => exact ⟨rfl, rfl, rfl, rfl, rfl⟩
      | some fp =>
        exact ⟨findOrder_applyFill_ne s u fp h, fillsFor_applyFill_ne s u fp h,
          applyFill_map_id s u fp, rfl, rfl⟩

/-- Folding tick iterations over any batch of orders, none of which can fill
into row `i`, preserves row `i`, its fills, the id list, prices and
account. -/
theorem foldl_tickStep_preserve (i : String) :
    ∀ (L : List Order) (s : DBState),
      (∀ u ∈ L, ¬ (u.id = i) ∨ ∀ lp, shouldFill u lp = none) →
      findOrder (L.foldl tickStep s) i = findOrder s i
      ∧ fillsFor (L.foldl tickStep s) i = fillsFor s i
      ∧ (L.foldl tickStep s).orders.map Order.id = s.orders.map Order.id
      ∧ (L.foldl tickStep s).prices = s.prices
      ∧ (L.foldl tickStep s).account = s.account := by
  intro L
  induction L with
  | nil => exact fun s _ => ⟨rfl, rfl, rfl, rfl, rfl⟩
  | cons u L ih =>
    intro s h
    rw [List.foldl_cons]
    rcases h u (List.mem_cons_self u L) with hne | hfn
    · have hrest := ih (tickStep s u) (fun v hv => h v (List.mem_cons_of_mem u hv))
      have hstep := tickStep_preserve_ne s u hne
      exact ⟨hrest.1.trans hstep.1, hrest.2.1.trans hstep.2.1,
        hrest.2.2.1.trans hstep.2.2.1, hrest.2.2.2.1.trans hstep.2.2.2.1,
        hrest.2.2.2.2.trans hstep.2.2.2.2⟩
    · rw [tickStep_eq_of_shouldFill_none s u hfn]
      exact ih s (fun v hv => h v (List.mem_cons_of_mem u hv))

/-- Any two rows of a table with pairwise-distinct ids that share an id are
the same row. -/
theorem eq_of_id_of_nodup {l : List Order}
    (hnd : (l.map Order.id).Nodup) {u v : Order}
    (hu : u ∈ l) (hv : v ∈ l) (h : u.id = v.id) : u = v :=
  List.inj_on_of_nodup_map hnd hu hv h

/-- A full matching-engine pass preserves the row, fills, id list, prices
and account of any order that can never fill, provided ids are unique. -/
theorem tick_preserve (st : DBState) {i : String} {o : Order}
    (hfind : findOrder st i = some o)
    (hnodup : (st.orders.map Order.id).Nodup)
    (ho : ∀ lp, shouldFill o lp = none) :
    findOrder (tick st) i = some o
    ∧ fillsFor (tick st) i = fillsFor st i
    ∧ (tick st).orders.map Order.id = st.orders.map Order.id
    ∧ (tick st).prices = st.prices
    ∧ (tick st).account = st.account := by
  have hmem : ∀ u ∈ getOpenOrders st, ¬ (u.id = i) ∨ ∀ lp, shouldFill u lp = none := by
    intro u hu
    by_cases hui : u.id = i
    · right
      have hu2 : u ∈ st.orders := List.mem_of_mem_filter hu
      have hoi : o.id = i := findOrder_id hfind
      have : u = o :=
        eq_of_id_of_nodup hnodup hu2 (findOrder_mem hfind) (by rw [hui, hoi])
      rw [this]
      exact ho
    · left
      exact hui
  have := foldl_tickStep_preserve i (getOpenOrders st) st hmem
  exact ⟨this.1.trans hfind, this.2.1, this.2.2.1, this.2.2.2.1, this.2.2.2.2⟩

end Sim

namespace Sim

/-- `cancel_orders` rewrites each row through the blanket-cancel transform. -/
theorem findOrder_cancelAllOrders (st : DBState) (i : String) :
    findOrder (cancelAllOrders st) i
      = (findOrder st i).map (fun o =>
          if o.status ∈ openStatuses then { o with status := "canceled" } else o) := by
  unfold findOrder cancelAllOrders
  exact find?_id_map _ i _ (by
    intro x
    by_cases h : x.status ∈ openStatuses <;> simp [h])

/-- When the order exists, `cancel_order_by_id` succeeds and rewrites it
through the unconditional cancel transform. -/
theorem cancelOrderById_ok {st : DBState} {oid : String} {o : Order}
    (h : findOrder st oid = some o) :
    cancelOrderById st oid
      = Except.ok
          { st with
              orders := st.orders.map (fun x =>
                if x.id = oid then { x with status := "canceled" } else x) } := by
  unfold cancelOrderById
  rw [h]

/-- Row lookup after the unconditional cancel rewrite. -/
theorem findOrder_cancel_map (st : DBState) (oid i : String) :
    findOrder
      { st with
          orders := st.orders.map (fun x =>
            if x.id = oid then { x with status := "canceled" } else x) } i
      = (findOrder st i).map (fun x =>
          if x.id = oid then { x with status := "canceled" } else x) := by
  unfold findOrder
  exact find?_id_map _ i _ (update_preserves_id oid _ (fun x => rfl))

/-- A replace request never changes an order's status: the request type has
no status field. -/
theorem applyReplace_status (r : ReplaceOrderRequest) (o : Order) :
    (applyReplace r o).status = o.status := rfl

/-- Row lookup after a replace. -/
theorem findOrder_replace_map (st : DBState) (oid i : String)
    (r : ReplaceOrderRequest) :
    findOrder
      { st with
          orders := st.orders.map (fun x =>
            if x.id = oid then applyReplace r x else x) } i
      = (findOrder st i).map (fun x =>
          if x.id = oid then applyReplace r x else x) := by
  unfold findOrder
  exact find?_id_map _ i _ (update_preserves_id oid _ (fun x => rfl))

/-- `submit_order` only appends rows: any existing row is still found. -/
theorem findOrder_submitOrder {st : DBState} {i : String} {o : Order}
    (h : findOrder st i = some o) (req : OrderRequest)
    (mainId tpId slId : String) :
    findOrder (submitOrder st req mainId tpId slId) i = some o := by
  unfold findOrder submitOrder
  rw [List.append_assoc]
  exact find?_append_of_some h _

/-- `close_position` only appends an order row (and deletes a position):
any existing order row is still found. -/
theorem findOrder_closePosition {st : DBState} {i : String} {o : Order}
    (h : findOrder st i = some o) {symbol newOrderId : String}
    {st2 : DBState} (hc : closePosition st symbol newOrderId = Except.ok st2) :
    findOrder st2 i = some o := by
  unfold closePosition at hc
  cases hp : st.positions.find? (fun p => p.symbol = symbol) with
  | none => rw [hp] at hc; exact absurd hc (by simp)
  | some position =>
    rw [hp] at hc
    have h2 := Except.ok.inj hc
    rw [← h2]
    exact find?_append_of_some h _

end Sim

namespace Sim

/-- A tick iteration never touches the account row, unconditionally. -/
theorem tickStep_account (s : DBState) (u : Order) :
    (tickStep s u).account = s.account := by
  unfold tickStep
  cases hp : getLatestPrice s u.symbol with
  | none => rfl
  | some lp =>
    by_cases hz : lp = 0
    · simp [hz]
    · simp only [if_neg hz]
      cases hsf : shouldFill u lp with
      | none => rfl
      | some fp => exact applyFill_account s u fp

/-- Folding tick iterations never touches the account row. -/
theorem foldl_tickStep_account :
    ∀ (L : List Order) (s : DBState), (L.foldl tickStep s).account = s.account := by
  intro L
  induction L with
  | nil => exact fun s => rfl
  | cons u L ih =>
    intro s
    rw [List.foldl_cons]
    exact (ih (tickStep s u)).trans (tickStep_account s u)

/-- A full matching-engine pass never touches the account row. -/
theorem tick_account (st : DBState) : (tick st).account = st.account :=
  foldl_tickStep_account (getOpenOrders st) st

end Sim

/-!
Claims.
-/

/-- Claim C1, counterexample: fill application is not atomic.  Filling the
open market order of `Ex.st0` at price 100 goes through three separately
committed transactions; the very first committed state — the head of the
trace, which any interleaved observer can read — already has the order
marked `filled` while its Fill row does not exist yet. -/
theorem C1_counterexample :
    (Sim.applyFillTrace Ex.st0 Ex.marketBuy 100).head? = some Ex.st0AfterOrderUpdate
    ∧ (Sim.findOrder Ex.st0AfterOrderUpdate "o1").map Sim.Order.status = some "filled"
    ∧ Sim.fillsFor Ex.st0AfterOrderUpdate "o1" = [] := by
  refine ⟨rfl, by decide, by decide⟩

/-- Claim C1, amended: fill application performs its three effects in a fixed
sequence of three separately committed transactions — order update, then Fill
insert, then position update.  After the third commit all three effects hold
(order filled, exactly one Fill row, position updated), but the state
committed by the first transaction is observable and has the order marked
filled with no Fill row. -/
theorem C1_fill_is_three_transactions (st : Sim.DBState) (o : Sim.Order) (fp : ℚ)
    (hno : Sim.fillsFor st o.id = []) :
    Sim.applyFillTrace st o fp
      = [Sim.markOrderFilled st o.id fp,
         Sim.insertFill (Sim.markOrderFilled st o.id fp) o fp,
         Sim.applyFill st o fp]
    ∧ (∀ x ∈ (Sim.markOrderFilled st o.id fp).orders, x.id = o.id → x.status = "filled")
    ∧ Sim.fillsFor (Sim.markOrderFilled st o.id fp) o.id = []
    ∧ (∀ x ∈ (Sim.applyFill st o fp).orders, x.id = o.id → x.status = "filled")
    ∧ Sim.fillsFor (Sim.applyFill st o fp) o.id
        = [{ orderId := o.id, price := fp, qty := o.qty }]
    ∧ (Sim.applyFill st o fp).positions = Sim.updatePosition st.positions o fp := by
  have hmark : ∀ x ∈ (Sim.markOrderFilled st o.id fp).orders,
      x.id = o.id → x.status = "filled" := by
    intro x hx hxid
    rcases List.mem_map.mp hx with ⟨y, hy, rfl⟩
    by_cases h : y.id = o.id
    · simp [h, Sim.setFilled]
    · rw [if_neg h] at hxid ⊢
      exact absurd hxid h
  have hfills : Sim.fillsFor (Sim.applyFill st o fp) o.id
      = [{ orderId := o.id, price := fp, qty := o.qty }] := by
    have h1 : (Sim.applyFill st o fp).fills
        = st.fills ++ [{ orderId := o.id, price := fp, qty := o.qty }] := rfl
    unfold Sim.fillsFor at hno ⊢
    rw [h1, List.filter_append, hno]
    simp
  exact ⟨rfl, hmark, hno, fun x hx => hmark x hx, hfills, rfl⟩

/-- Claim C1, witness: the amended statement at the concrete state `Ex.st0`. -/
theorem C1_witness :
    Sim.fillsFor Ex.st0 Ex.marketBuy.id = []
    ∧ Sim.applyFillTrace Ex.st0 Ex.marketBuy 100
        = [Sim.markOrderFilled Ex.st0 Ex.marketBuy.id 100,
           Sim.insertFill (Sim.markOrderFilled Ex.st0 Ex.marketBuy.id 100) Ex.marketBuy 100,
           Sim.applyFill Ex.st0 Ex.marketBuy 100] :=
  ⟨by decide, (C1_fill_is_three_transactions Ex.st0 Ex.marketBuy 100 (by decide)).1⟩

/-- Claim C2, counterexample: the loser of a cancel/fill race does overwrite
the winner.  `Ex.stFilled` holds an order the matching engine already filled
(terminal status `filled`, Fill row present); `cancel_order_by_id` on it
succeeds and leaves the order `canceled` while its Fill row remains — the
outcome "canceled with a Fill row" that the claim says can never occur, and
the terminal status is not preserved. -/
theorem C2_counterexample :
    (Sim.findOrder Ex.stFilled "o1").map Sim.Order.status = some "filled"
    ∧ Sim.fillsFor Ex.stFilled "o1" = [{ orderId := "o1", price := 100, qty := 10 }]
    ∧ Sim.cancelOrderById Ex.stFilled "o1" = Except.ok Ex.stCanceledAfterFill
    ∧ (Sim.findOrder Ex.stCanceledAfterFill "o1").map Sim.Order.status = some "canceled"
    ∧ Sim.fillsFor Ex.stCanceledAfterFill "o1"
        = [{ orderId := "o1", price := 100, qty := 10 }] := by
  refine ⟨by decide, by decide, by decide, by decide, by decide⟩

/-- Claim C2, amended: `cancel_order_by_id` resolves no race — it cancels
unconditionally.  Whenever the order exists, whatever its current status
(including the terminal `filled`), the call succeeds, rewrites the status to
`canceled`, and leaves the fills and positions tables untouched; so a cancel
arriving after a fill overwrites the fill's terminal status and produces a
canceled order that still has its Fill row. -/
theorem C2_cancel_overwrites_any_status (st : Sim.DBState) (oid : String)
    (o : Sim.Order) (h : Sim.findOrder st oid = some o) :
    ∃ st2, Sim.cancelOrderById st oid = Except.ok st2
      ∧ Sim.findOrder st2 oid = some { o with status := "canceled" }
      ∧ st2.fills = st.fills
      ∧ st2.positions = st.positions := by
  refine ⟨_, Sim.cancelOrderById_ok h, ?_, rfl, rfl⟩
  rw [Sim.findOrder_cancel_map, h]
  have hid : o.id = oid := Sim.findOrder_id h
  simp [hid]

/-- Claim C2, witness: the amended statement at the concrete filled order. -/
theorem C2_witness :
    Sim.findOrder Ex.stFilled "o1" = some (Sim.setFilled 100 Ex.marketBuy)
    ∧ ∃ st2, Sim.cancelOrderById Ex.stFilled "o1" = Except.ok st2
        ∧ Sim.findOrder st2 "o1"
            = some { Sim.setFilled 100 Ex.marketBuy with status := "canceled" }
        ∧ st2.fills = Ex.stFilled.fills
        ∧ st2.positions = Ex.stFilled.positions :=
  ⟨by decide, C2_cancel_overwrites_any_status Ex.stFilled "o1" _ (by decide)⟩

/-- Claim C5, counterexample: a fill the matching engine applies does not
debit cash.  Ticking `Ex.st0` fills its open buy order for 10 shares at 100
(the Fill row and the filled status are both there), yet the account row
still holds the original 100000 cash — not the 100000 − 100·10 the claim
requires, and the account was not mutated at all. -/
theorem C5_counterexample :
    Sim.fillsFor (Sim.tick Ex.st0) "o1" = [{ orderId := "o1", price := 100, qty := 10 }]
    ∧ (Sim.findOrder (Sim.tick Ex.st0) "o1").map Sim.Order.status = some "filled"
    ∧ Ex.st0.account = some { cash := 100000 }
    ∧ (Sim.tick Ex.st0).account = some { cash := 100000 }
    ∧ ¬ ((100000 : ℚ) = 100000 - 100 * 10) := by
  refine ⟨by decide, by decide, rfl, by decide, by norm_num⟩

/-- Claim C5, amended: fill application never touches the Account at all — no
branch of `apply_fill` or of a full matching-engine pass reads, mutates or
deletes the account row, so cash is not adjusted by any fill. -/
theorem C5_fills_never_touch_account (st : Sim.DBState) (o : Sim.Order) (fp : ℚ) :
    (Sim.applyFill st o fp).account = st.account
    ∧ (Sim.tick st).account = st.account :=
  ⟨Sim.applyFill_account st o fp, Sim.tick_account st⟩

/-- Claim C6: the `cancel_order` tool's polling loop exits only on a status
in `[canceled, expired, rejected, stopped, suspended]`; `filled` is not in
that set, so on an order that reached `filled` the loop never returns, for
any number of polling rounds — contradicting both the claim and the
function's own docstring, which promise the final status `filled` is
reported truthfully.  A run that does observe `canceled` returns the
canceled result. -/
theorem C6_cancel_poll_cannot_report_filled :
    ¬ ("filled" ∈ Tools.cancelPollExitStatuses)
    ∧ (∀ fuel start, Tools.pollCancel (fun _ => "filled") fuel start = none)
    ∧ (∀ fuel, Tools.cancelOrderTool "o1" (fun _ => "filled") fuel = none)
    ∧ Tools.cancelOrderTool "o1" (fun _ => "canceled") 1
        = some { orderId := "o1", orderStatus := "canceled" } := by
  have hpoll : ∀ fuel start, Tools.pollCancel (fun _ => "filled") fuel start = none := by
    intro fuel
    induction fuel with
    | zero => intro start; rfl
    | succ n ih =>
      intro start
      have : ¬ ("filled" ∈ Tools.cancelPollExitStatuses) := by decide
      simp only [Tools.pollCancel, if_neg this]
      exact ih (start + 1)
  refine ⟨by decide, hpoll, ?_, rfl⟩
  intro fuel
  unfold Tools.cancelOrderTool
  rw [hpoll fuel 0]

/-- Claim C7, counterexample: a failing cancel leg aborts the liquidation
instead of being aggregated around.  With one TSLA position and two cancel
legs of which the second raises, `liquidate_position` reports
`success: False` with that error — but the database comes back unchanged:
the position is still there and no closing order was submitted, even though
`close_position` would have succeeded. -/
theorem C7_counterexample :
    Tools.liquidatePosition Ex.stTSLA "TSLA"
        [Except.ok (), Except.error "order already filled"] "o9"
      = ({ success := false, error := some "order already filled" }, Ex.stTSLA)
    ∧ Ex.stTSLA.positions
        = [{ symbol := "TSLA", qty := 3, side := "long", avgEntryPrice := 200,
             marketValue := 600, costBasis := 600, currentPrice := 200 }]
    ∧ Sim.closePosition Ex.stTSLA "TSLA" "o9" = Except.ok Ex.stTSLAClosed := by
  refine ⟨by decide, rfl, by decide⟩

/-- Claim C7, amended: each cancel leg's failure is NOT caught individually —
the first error among the gathered cancels propagates into the single
try/except, the result is `success: False` carrying that error, and
`close_position` is never called, leaving the database (position included)
unchanged; only when every cancel leg succeeds does the liquidation close
the position. -/
theorem C7_failing_cancel_aborts_liquidation (st : Sim.DBState)
    (symbol nid : String) (results : List (Except String Unit)) :
    (∀ e, Tools.firstError results = some e →
      Tools.liquidatePosition st symbol results nid
        = ({ success := false, error := some e }, st))
    ∧ (Tools.firstError results = none →
      ∀ st2, Sim.closePosition st symbol nid = Except.ok st2 →
        Tools.liquidatePosition st symbol results nid
          = ({ success := true, error := none }, st2)) := by
  constructor
  · intro e he
    unfold Tools.liquidatePosition
    rw [he]
  · intro h0 st2 hc
    unfold Tools.liquidatePosition
    rw [h0, hc]

/-- Claim C7, witness: the amended statement at the concrete two-leg
scenario. -/
theorem C7_witness :
    Tools.firstError [Except.ok (), Except.error "already filled"]
      = some "already filled"
    ∧ Tools.liquidatePosition Ex.stTSLA "TSLA"
        [Except.ok (), Except.error "already filled"] "o9"
      = ({ success := false, error := some "already filled" }, Ex.stTSLA) :=
  ⟨by decide,
    (C7_failing_cancel_aborts_liquidation Ex.stTSLA "TSLA" "o9"
      [Except.ok (), Except.error "already filled"]).1 "already filled" (by decide)⟩

/-- Claim C3, counterexample: a known latest price of exactly 0 defeats the
stated decision.  In `Ex.stZeroPrice` the market-data table answers
`some 0` for AAPL (the price is known) and an open market buy order exists —
by the claim it is always fillable at the latest price, and indeed the
decision function says `some 0` — yet a full tick changes nothing and
records no fill, because the source's `if not latest_price: continue` is a
Python falsiness test and `0.0` is falsy. -/
theorem C3_counterexample :
    Sim.getLatestPrice Ex.stZeroPrice "AAPL" = some 0
    ∧ Ex.marketBuy ∈ Sim.getOpenOrders Ex.stZeroPrice
    ∧ Ex.marketBuy.type = "market"
    ∧ Sim.shouldFill Ex.marketBuy 0 = some 0
    ∧ Sim.tick Ex.stZeroPrice = Ex.stZeroPrice
    ∧ (Sim.tick Ex.stZeroPrice).fills = [] := by
  refine ⟨by decide, by decide, rfl, by decide, by decide, by decide⟩

/-- Claim C3, amended: for every open order whose symbol has a known NONZERO
latest price, the fill decision is exactly as stated — market always fills
at the latest price; buy limit iff latest ≤ limit and sell limit iff
latest ≥ limit, at the limit price; sell stop iff latest ≤ stop and buy stop
iff latest ≥ stop, at the latest price — and the tick applies exactly that
decision.  An order whose symbol has no known price is skipped without
error, and so is one whose known latest price is exactly 0, which the
engine's falsiness test treats as missing. -/
theorem C3_fill_decision (o : Sim.Order) (lp : ℚ) (s : Sim.DBState) :
    (o.type = "market" → Sim.shouldFill o lp = some lp)
    ∧ (∀ l, o.type = "limit" → o.limitPrice = some l → o.side = "buy" →
        Sim.shouldFill o lp = if lp ≤ l then some l else none)
    ∧ (∀ l, o.type = "limit" → o.limitPrice = some l → o.side = "sell" →
        Sim.shouldFill o lp = if l ≤ lp then some l else none)
    ∧ (∀ sp, o.type = "stop" → o.stopPrice = some sp → o.side = "sell" →
        Sim.shouldFill o lp = if lp ≤ sp then some lp else none)
    ∧ (∀ sp, o.type = "stop" → o.stopPrice = some sp → o.side = "buy" →
        Sim.shouldFill o lp = if sp ≤ lp then some lp else none)
    ∧ (Sim.getLatestPrice s o.symbol = none → Sim.tickStep s o = s)
    ∧ (Sim.getLatestPrice s o.symbol = some 0 → Sim.tickStep s o = s)
    ∧ (∀ fp, Sim.getLatestPrice s o.symbol = some lp → ¬ (lp = 0) →
        Sim.shouldFill o lp = some fp → Sim.tickStep s o = Sim.applyFill s o fp)
    ∧ (Sim.getLatestPrice s o.symbol = some lp → ¬ (lp = 0) →
        Sim.shouldFill o lp = none → Sim.tickStep s o = s) := by
  refine ⟨?_, ?_, ?_, ?_, ?_, ?_, ?_, ?_, ?_⟩
  · intro h
    simp [Sim.shouldFill, h]
  · intro l hty hlp hside
    simp [Sim.shouldFill, hty, hlp, hside]
  · intro l hty hlp hside
    simp [Sim.shouldFill, hty, hlp, hside]
  · intro sp hty hsp hside
    simp [Sim.shouldFill, hty, hsp, hside]
  · intro sp hty hsp hside
    simp [Sim.shouldFill, hty, hsp, hside]
  · intro h
    unfold Sim.tickStep
    rw [h]
  · intro h
    unfold Sim.tickStep
    rw [h]
    simp
  · intro fp h hz hsf
    unfold Sim.tickStep
    rw [h]
    simp only [if_neg hz]
    rw [hsf]
  · intro h hz hsf
    unfold Sim.tickStep
    rw [h]
    simp only [if_neg hz]
    rw [hsf]

/-- Claim C3, witness: the amended decision at the concrete open market
order of `Ex.st0`, whose latest price is the nonzero 100. -/
theorem C3_witness :
    Ex.marketBuy.type = "market"
    ∧ Sim.shouldFill Ex.marketBuy 100 = some 100 :=
  ⟨rfl, (C3_fill_decision Ex.marketBuy 100 Ex.st0).1 rfl⟩

namespace Sim

/-- `_update_position` against a table holding exactly one position for the
order's symbol, with the branch structure spelled out: the source reads the
stored `qty` — the absolute value — back as the signed quantity. -/
theorem updatePosition_single (p : Position) (o : Order) (fp : ℚ)
    (hsym : p.symbol = o.symbol) :
    updatePosition [p] o fp =
      (if p.qty + (if o.side = "sell" then -o.qty else o.qty) = 0 then []
       else
         [{ p with
             qty := |p.qty + (if o.side = "sell" then -o.qty else o.qty)|,
             side := if p.qty + (if o.side = "sell" then -o.qty else o.qty) > 0
                     then "long" else "short",
             avgEntryPrice :=
               (p.avgEntryPrice * p.qty
                 + fp * (if o.side = "sell" then -o.qty else o.qty))
               / (p.qty + (if o.side = "sell" then -o.qty else o.qty)),
             marketValue := (p.qty + (if o.side = "sell" then -o.qty else o.qty)) * fp,
             currentPrice := fp }]) := by
  simp [updatePosition, hsym]

/-- `_update_position` against a flat book: the creation branch. -/
theorem updatePosition_create (o : Order) (fp : ℚ) :
    updatePosition [] o fp =
      [{ symbol := o.symbol,
         qty := |if o.side = "sell" then -o.qty else o.qty|,
         side := if (if o.side = "sell" then -o.qty else o.qty) > 0 then "long" else "short",
         avgEntryPrice := fp,
         marketValue := (if o.side = "sell" then -o.qty else o.qty) * fp,
         costBasis := (if o.side = "sell" then -o.qty else o.qty) * fp,
         currentPrice := fp }] := by
  simp [updatePosition]

end Sim

/-- Claim C4, counterexample: the sign conventions are not consistent for
shorts.  `Ex.shortPos` is a stored short position of 10 shares at entry 100;
a 5-share SELL fill at 100 — same direction as the short, which by the claim
should grow it to 15 short — instead produces a 5-share LONG position: the
stored quantity is the absolute value, but the update reads it back as if it
were signed. -/
theorem C4_counterexample :
    Ex.shortPos.side = "short"
    ∧ Ex.sellFive.side = "sell"
    ∧ Ex.shortPos.qty = 10
    ∧ Sim.updatePosition [Ex.shortPos] Ex.sellFive 100 = [Ex.shortPosAfterSell]
    ∧ Ex.shortPosAfterSell.side = "long"
    ∧ Ex.shortPosAfterSell.qty = 5 := by
  refine ⟨rfl, rfl, by decide, ?_, rfl, by decide⟩
  simp [Sim.updatePosition, Ex.shortPos, Ex.sellFive, Ex.shortPosAfterSell]
  norm_num

/-- Claim C4, amended: position accounting follows the stated lifecycle with
the stored quantity treated as a long (absolute) size regardless of the
stored side.  Creation on a flat book gets entry price = fill price and the
correct side; against an existing row — WHATEVER its stored side — a buy
grows the stored size with weighted-average entry price, a smaller sell
shrinks it (side forced to long), an exactly-matching sell deletes the row,
and a larger sell flips it to short with the residual size; consistency for
existing short positions fails, as the counterexample shows. -/
theorem C4_position_accounting (o : Sim.Order) (p : Sim.Position) (fp : ℚ)
    (hsym : p.symbol = o.symbol) (hq : 0 < o.qty) (hpq : 0 < p.qty) :
    (o.side = "buy" → Sim.updatePosition [] o fp
      = [{ symbol := o.symbol, qty := o.qty, side := "long", avgEntryPrice := fp,
           marketValue := o.qty * fp, costBasis := o.qty * fp, currentPrice := fp }])
    ∧ (o.side = "sell" → Sim.updatePosition [] o fp
      = [{ symbol := o.symbol, qty := o.qty, side := "short", avgEntryPrice := fp,
           marketValue := -o.qty * fp, costBasis := -o.qty * fp, currentPrice := fp }])
    ∧ (o.side = "buy" → Sim.updatePosition [p] o fp
      = [{ p with
           qty := p.qty + o.qty,
           side := "long",
           avgEntryPrice := (p.avgEntryPrice * p.qty + fp * o.qty) / (p.qty + o.qty),
           marketValue := (p.qty + o.qty) * fp,
           currentPrice := fp }])
    ∧ (o.side = "sell" → o.qty < p.qty → Sim.updatePosition [p] o fp
      = [{ p with
           qty := p.qty - o.qty,
           side := "long",
           avgEntryPrice := (p.avgEntryPrice * p.qty - fp * o.qty) / (p.qty - o.qty),
           marketValue := (p.qty - o.qty) * fp,
           currentPrice := fp }])
    ∧ (o.side = "sell" → o.qty = p.qty → Sim.updatePosition [p] o fp = [])
    ∧ (o.side = "sell" → p.qty < o.qty → Sim.updatePosition [p] o fp
      = [{ p with
           qty := o.qty - p.qty,
           side := "short",
           avgEntryPrice := (p.avgEntryPrice * p.qty - fp * o.qty) / (p.qty - o.qty),
           marketValue := (p.qty - o.qty) * fp,
           currentPrice := fp }]) := by
  refine ⟨?_, ?_, ?_, ?_, ?_, ?_⟩
  · intro hside
    rw [Sim.updatePosition_create, hside]
    rw [show (if ("buy" : String) = "sell" then -o.qty else o.qty) = o.qty from
      if_neg (by decide)]
    rw [abs_of_pos hq, if_pos hq]
  · intro hside
    rw [Sim.updatePosition_create, hside]
    rw [show (if ("sell" : String) = "sell" then -o.qty else o.qty) = -o.qty from
      if_pos rfl]
    rw [abs_neg, abs_of_pos hq, if_neg (show ¬ ((-o.qty : ℚ) > 0) by linarith)]
  · intro hside
    rw [Sim.updatePosition_single p o fp hsym, hside]
    rw [show (if ("buy" : String) = "sell" then -o.qty else o.qty) = o.qty from
      if_neg (by decide)]
    have hpos : 0 < p.qty + o.qty := by linarith
    rw [if_neg (show ¬ (p.qty + o.qty = 0) by linarith), if_pos hpos, abs_of_pos hpos]
  · intro hside hlt
    rw [Sim.updatePosition_single p o fp hsym, hside]
    rw [show (if ("sell" : String) = "sell" then -o.qty else o.qty) = -o.qty from
      if_pos rfl]
    simp only [mul_neg, ← sub_eq_add_neg]
    have hpos : 0 < p.qty - o.qty := by linarith
    rw [if_neg (show ¬ (p.qty - o.qty = 0) by linarith), if_pos hpos, abs_of_pos hpos]
  · intro hside heq
    rw [Sim.updatePosition_single p o fp hsym, hside]
    rw [show (if ("sell" : String) = "sell" then -o.qty else o.qty) = -o.qty from
      if_pos rfl]
    rw [if_pos (show p.qty + -o.qty = 0 by rw [heq]; ring)]
  · intro hside hgt
    rw [Sim.updatePosition_single p o fp hsym, hside]
    rw [show (if ("sell" : String) = "sell" then -o.qty else o.qty) = -o.qty from
      if_pos rfl]
    simp only [mul_neg, ← sub_eq_add_neg]
    have hneg : p.qty - o.qty < 0 := by linarith
    rw [if_neg (show ¬ (p.qty - o.qty = 0) by linarith),
      if_neg (show ¬ (p.qty - o.qty > 0) by linarith), abs_of_neg hneg]
    rw [show -(p.qty - o.qty) = o.qty - p.qty by ring]

/-- Claim C4, witness: the amended accounting at the concrete sell order
against a flat book. -/
theorem C4_witness :
    Ex.longTen.symbol = Ex.sellFive.symbol
    ∧ Sim.updatePosition [] Ex.sellFive 90
        = [{ symbol := Ex.sellFive.symbol, qty := Ex.sellFive.qty, side := "short",
             avgEntryPrice := 90, marketValue := -Ex.sellFive.qty * 90,
             costBasis := -Ex.sellFive.qty * 90, currentPrice := 90 }] :=
  ⟨rfl,
    (C4_position_accounting Ex.sellFive Ex.longTen 90 rfl (by norm_num [Ex.sellFive])
      (by norm_num [Ex.longTen])).2.1 rfl⟩

namespace Tools

/-- The running maximum dominates its seed. -/
theorem le_foldl_max : ∀ (l : List ℚ) (a : ℚ), a ≤ l.foldl max a := by
  intro l
  induction l with
  | nil => intro a; exact le_refl a
  | cons x xs ih => intro a; exact le_trans (le_max_left a x) (ih (max a x))

/-- The running minimum is dominated by its seed. -/
theorem foldl_min_le : ∀ (l : List ℚ) (a : ℚ), l.foldl min a ≤ a := by
  intro l
  induction l with
  | nil => intro a; exact le_refl a
  | cons x xs ih => intro a; exact le_trans (ih (min a x)) (min_le_left a x)

/-- Extending the observed prices can only raise the high-water-mark. -/
theorem highWaterMark_le_append (init : ℚ) (ps qs : List ℚ) :
    highWaterMark init ps ≤ highWaterMark init (ps ++ qs) := by
  unfold highWaterMark
  rw [List.foldl_append]
  exact le_foldl_max qs _

/-- Extending the observed prices can only lower the low-water-mark. -/
theorem lowWaterMark_append_le (init : ℚ) (ps qs : List ℚ) :
    lowWaterMark init (ps ++ qs) ≤ lowWaterMark init ps := by
  unfold lowWaterMark
  rw [List.foldl_append]
  exact foldl_min_le qs _

end Tools

/-- Claim C8 (spec-modelled tracker, validation from `place_trailing_stop`):
for a sell-side trailing stop with parameters the tool accepts, the
high-water-mark ratchets only upward over any price sequence, the effective
stop price `hwm × (1 − trail_percent/100)` or `hwm − trail_price` is monotone
in the high-water-mark — hence non-decreasing as prices extend — and a new
price at or below the current high-water-mark leaves the mark, and therefore
the stop, exactly unchanged; mirrored for the buy side around the
low-water-mark. -/
theorem C8_trailing_stop_monotone (p t init x : ℚ) (ps qs : List ℚ)
    (hp : Tools.validTrailParams (some p) none = true)
    (ht : Tools.validTrailParams none (some t) = true) :
    (init ≤ Tools.highWaterMark init ps)
    ∧ (Tools.highWaterMark init ps ≤ Tools.highWaterMark init (ps ++ qs))
    ∧ (∀ h1 h2 : ℚ, h1 ≤ h2 →
        Tools.sellTrailStopPrice (Tools.TrailParam.percent p) h1
          ≤ Tools.sellTrailStopPrice (Tools.TrailParam.percent p) h2)
    ∧ (∀ h1 h2 : ℚ, h1 ≤ h2 →
        Tools.sellTrailStopPrice (Tools.TrailParam.fixed t) h1
          ≤ Tools.sellTrailStopPrice (Tools.TrailParam.fixed t) h2)
    ∧ (Tools.sellTrailStopPrice (Tools.TrailParam.percent p) (Tools.highWaterMark init ps)
        ≤ Tools.sellTrailStopPrice (Tools.TrailParam.percent p)
            (Tools.highWaterMark init (ps ++ qs)))
    ∧ (Tools.sellTrailStopPrice (Tools.TrailParam.fixed t) (Tools.highWaterMark init ps)
        ≤ Tools.sellTrailStopPrice (Tools.TrailParam.fixed t)
            (Tools.highWaterMark init (ps ++ qs)))
    ∧ (x ≤ Tools.highWaterMark init ps →
        Tools.highWaterMark init (ps ++ [x]) = Tools.highWaterMark init ps)
    ∧ (Tools.lowWaterMark init (ps ++ qs) ≤ Tools.lowWaterMark init ps)
    ∧ (Tools.lowWaterMark init ps ≤ init)
    ∧ (∀ h1 h2 : ℚ, h1 ≤ h2 →
        Tools.buyTrailStopPrice (Tools.TrailParam.percent p) h1
          ≤ Tools.buyTrailStopPrice (Tools.TrailParam.percent p) h2)
    ∧ (∀ h1 h2 : ℚ, h1 ≤ h2 →
        Tools.buyTrailStopPrice (Tools.TrailParam.fixed t) h1
          ≤ Tools.buyTrailStopPrice (Tools.TrailParam.fixed t) h2)
    ∧ (Tools.lowWaterMark init ps ≤ x →
        Tools.lowWaterMark init (ps ++ [x]) = Tools.lowWaterMark init ps) := by
  have hpb : (0.01 : ℚ) ≤ p ∧ p ≤ 20 := by
    simpa [Tools.validTrailParams] using hp
  have hc : (0 : ℚ) ≤ 1 - p / 100 := by
    have h20 := hpb.2
    linarith
  have hc2 : (0 : ℚ) ≤ 1 + p / 100 := by
    have h001 := hpb.1
    linarith
  have hwmle : Tools.highWaterMark init ps ≤ Tools.highWaterMark init (ps ++ qs) :=
    Tools.highWaterMark_le_append init ps qs
  refine ⟨Tools.le_foldl_max ps init, hwmle, ?_, ?_, ?_, ?_, ?_,
    Tools.lowWaterMark_append_le init ps qs, Tools.foldl_min_le ps init, ?_, ?_, ?_⟩
  · intro h1 h2 h
    exact mul_le_mul_of_nonneg_right h hc
  · intro h1 h2 h
    exact sub_le_sub_right h t
  · exact mul_le_mul_of_nonneg_right hwmle hc
  · exact sub_le_sub_right hwmle t
  · intro hx
    unfold Tools.highWaterMark
    rw [List.foldl_append]
    simp only [List.foldl_cons, List.foldl_nil]
    exact max_eq_left hx
  · intro h1 h2 h
    exact mul_le_mul_of_nonneg_right h hc2
  · intro h1 h2 h
    exact add_le_add_right h t
  · intro hx
    unfold Tools.lowWaterMark
    rw [List.foldl_append]
    simp only [List.foldl_cons, List.foldl_nil]
    exact min_eq_left hx

/-- Claim C8, witness: the docstring's own scenario — trail percent 5,
order placed at price 100, prices rising to 120 then falling to 116. -/
theorem C8_witness :
    Tools.validTrailParams (some 5) none = true
    ∧ Tools.validTrailParams none (some 2) = true
    ∧ Tools.sellTrailStopPrice (Tools.TrailParam.percent 5)
          (Tools.highWaterMark 100 [120])
        ≤ Tools.sellTrailStopPrice (Tools.TrailParam.percent 5)
            (Tools.highWaterMark 100 ([120] ++ [116])) :=
  ⟨by norm_num [Tools.validTrailParams], by norm_num [Tools.validTrailParams],
    (C8_trailing_stop_monotone 5 2 100 116 [120] [116]
      (by norm_num [Tools.validTrailParams])
      (by norm_num [Tools.validTrailParams])).2.2.2.2.1⟩

namespace Sim

/-- When the order exists, `replace_order_by_id` succeeds and rewrites it
through the field-update transform. -/
theorem replaceOrderById_ok {st : DBState} {oid : String} {u : Order}
    (h : findOrder st oid = some u) (r : ReplaceOrderRequest) :
    replaceOrderById st oid r
      = Except.ok
          { st with
              orders := st.orders.map (fun x =>
                if x.id = oid then applyReplace r x else x) } := by
  unfold replaceOrderById
  rw [h]

end Sim

/-- Claim C9: every bracket leg `submit_order` creates is stored in status
`held`; `held` is not an open status, so the matching engine never selects a
held order — no open order shares its id, a full tick leaves its row and its
(absent) fills untouched — and no engine operation (tick, blanket cancel,
cancel by id, replace, submit, close-position) ever moves a held order to an
active status: afterwards its status is still `held` or has become
`canceled`, never `new`/`accepted`/`partially_filled`. -/
theorem C9_held_legs_never_activated (st : Sim.DBState) (i : String) (o : Sim.Order)
    (hfind : Sim.findOrder st i = some o)
    (hheld : o.status = "held")
    (hnodup : (st.orders.map Sim.Order.id).Nodup) :
    (∀ req tpId leg, Sim.takeProfitLeg req tpId = some leg → leg.status = "held")
    ∧ (∀ req slId leg, Sim.stopLossLeg req slId = some leg → leg.status = "held")
    ∧ ¬ ("held" ∈ Sim.openStatuses)
    ∧ (∀ u ∈ Sim.getOpenOrders st, ¬ (u.id = i))
    ∧ Sim.findOrder (Sim.tick st) i = some o
    ∧ Sim.fillsFor (Sim.tick st) i = Sim.fillsFor st i
    ∧ (∀ op, ∃ o2, Sim.findOrder (Sim.applyOp st op) i = some o2
        ∧ (o2.status = "held" ∨ o2.status = "canceled")) := by
  have hoi : o.id = i := Sim.findOrder_id hfind
  have homem : o ∈ st.orders := Sim.findOrder_mem hfind
  have hnotopen : ¬ (o.status ∈ Sim.openStatuses) := by
    rw [hheld]
    decide
  have hopen_ne : ∀ u ∈ Sim.getOpenOrders st, ¬ (u.id = i) := by
    intro u hu hui
    have hu2 : u ∈ st.orders := List.mem_of_mem_filter hu
    have hustat := List.of_mem_filter hu
    have hueq : u = o := Sim.eq_of_id_of_nodup hnodup hu2 homem (by rw [hui, hoi])
    rw [hueq] at hustat
    exact hnotopen (by simpa using hustat)
  have hfold := Sim.foldl_tickStep_preserve i (Sim.getOpenOrders st) st
    (fun u hu => Or.inl (hopen_ne u hu))
  have htp : ∀ req tpId leg, Sim.takeProfitLeg req tpId = some leg →
      leg.status = "held" := by
    intro req tpId leg h
    unfold Sim.takeProfitLeg at h
    cases hreq : req.takeProfitPrice with
    | none => rw [hreq] at h; exact absurd h (by simp)
    | some price =>
      rw [hreq] at h
      have h2 := Option.some.inj h
      rw [← h2]
  have hsl : ∀ req slId leg, Sim.stopLossLeg req slId = some leg →
      leg.status = "held" := by
    intro req slId leg h
    unfold Sim.stopLossLeg at h
    cases hreq : req.stopLossPrice with
    | none => rw [hreq] at h; exact absurd h (by simp)
    | some price =>
      rw [hreq] at h
      have h2 := Option.some.inj h
      rw [← h2]
  refine ⟨htp, hsl, by decide, hopen_ne, hfold.1.trans hfind, hfold.2.1, ?_⟩
  intro op
  cases op with
  | tick =>
    exact ⟨o, hfold.1.trans hfind, Or.inl hheld⟩
  | cancelAll =>
    refine ⟨o, ?_, Or.inl hheld⟩
    simp only [Sim.applyOp]
    rw [Sim.findOrder_cancelAllOrders, hfind]
    simp [hnotopen]
  | cancelById oid =>
    simp only [Sim.applyOp]
    cases hoid : Sim.findOrder st oid with
    | none =>
      have herr : Sim.cancelOrderById st oid = Except.error "Order not found" := by
        unfold Sim.cancelOrderById
        rw [hoid]
      rw [herr]
      exact ⟨o, hfind, Or.inl hheld⟩
    | some u =>
      rw [Sim.cancelOrderById_ok hoid]
      refine ⟨(if o.id = oid then { o with status := "canceled" } else o), ?_, ?_⟩
      · rw [Sim.findOrder_cancel_map, hfind]
        rfl
      · by_cases h : o.id = oid
        · right
          simp [h]
        · left
          simp [h, hheld]
  | replaceById oid r =>
    simp only [Sim.applyOp]
    cases hoid : Sim.findOrder st oid with
    | none =>
      have herr : Sim.replaceOrderById st oid r = Except.error "Order not found" := by
        unfold Sim.replaceOrderById
        rw [hoid]
      rw [herr]
      exact ⟨o, hfind, Or.inl hheld⟩
    | some u =>
      rw [Sim.replaceOrderById_ok hoid r]
      refine ⟨(if o.id = oid then Sim.applyReplace r o else o), ?_, ?_⟩
      · rw [Sim.findOrder_replace_map, hfind]
        rfl
      · by_cases h : o.id = oid
        · left
          simp [h, Sim.applyReplace_status, hheld]
        · left
          simp [h, hheld]
  | submit req mainId tpId slId =>
    exact ⟨o, Sim.findOrder_submitOrder hfind req mainId tpId slId, Or.inl hheld⟩
  | close symbol newOrderId =>
    simp only [Sim.applyOp]
    cases hres : Sim.closePosition st symbol newOrderId with
    | error e =>
      exact ⟨o, hfind, Or.inl hheld⟩
    | ok st2 =>
      exact ⟨o, Sim.findOrder_closePosition hfind hres, Or.inl hheld⟩

/-- Claim C9, witness: the held take-profit leg of `Ex.stHeld` survives a
full matching-engine tick untouched. -/
theorem C9_witness :
    Sim.findOrder Ex.stHeld "leg1" = some Ex.heldLeg
    ∧ Sim.findOrder (Sim.tick Ex.stHeld) "leg1" = some Ex.heldLeg :=
  ⟨by decide,
    (C9_held_legs_never_activated Ex.stHeld "leg1" Ex.heldLeg (by decide) rfl
      (by decide)).2.2.2.2.1⟩

/-- Claim C10: the matching engine only ever fills `market` / `limit` /
`stop` orders.  An order of any other type — `trailing_stop`, `stop_limit`,
... — is rejected by the fill decision at every price, and over any number
of matching-engine ticks its row (status included) and its fills are
exactly unchanged, regardless of price movement. -/
theorem C10_unmatchable_type_never_fills (st : Sim.DBState) (i : String)
    (o : Sim.Order)
    (hfind : Sim.findOrder st i = some o)
    (hty : ¬ (o.type ∈ (["market", "limit", "stop"] : List String)))
    (hnodup : (st.orders.map Sim.Order.id).Nodup) :
    (∀ lp, Sim.shouldFill o lp = none)
    ∧ ∀ n, Sim.findOrder (Sim.tick^[n] st) i = some o
        ∧ Sim.fillsFor (Sim.tick^[n] st) i = Sim.fillsFor st i := by
  have ho : ∀ lp, Sim.shouldFill o lp = none :=
    fun lp => Sim.shouldFill_eq_none_of_type hty lp
  refine ⟨ho, ?_⟩
  have key : ∀ n, Sim.findOrder (Sim.tick^[n] st) i = some o
      ∧ Sim.fillsFor (Sim.tick^[n] st) i = Sim.fillsFor st i
      ∧ ((Sim.tick^[n] st).orders.map Sim.Order.id).Nodup := by
    intro n
    induction n with
    | zero => exact ⟨hfind, rfl, hnodup⟩
    | succ m ih =>
      have hstep := Sim.tick_preserve (Sim.tick^[m] st) ih.1 ih.2.2 ho
      rw [Function.iterate_succ_apply']
      refine ⟨hstep.1, hstep.2.1.trans ih.2.1, ?_⟩
      rw [hstep.2.2.1]
      exact ih.2.2
  exact fun n => ⟨(key n).1, (key n).2.1⟩

/-- Claim C10, witness: the open trailing-stop order of `Ex.stTrailing` is
still exactly its original row after two ticks. -/
theorem C10_witness :
    Sim.findOrder Ex.stTrailing "o3" = some Ex.trailingOrder
    ∧ Sim.findOrder (Sim.tick^[2] Ex.stTrailing) "o3" = some Ex.trailingOrder :=
  ⟨by decide,
    ((C10_unmatchable_type_never_fills Ex.stTrailing "o3" Ex.trailingOrder
      (by decide) (by decide) (by decide)).2 2).1⟩
